import Mathlib

/-!
Verification development for the datacube metadata-catalog core:
shallow embedding of the driver-registry dispatch layer
(`datacube/drivers/manager.py`), the dataset-info traversal
(`datacube/ui/common.py`), the file CLI exit-code logic
(`datacube/scripts/file_cli.py`), and spec-level models of the
field compiler, registries and search projection.
-/

namespace Spec2Proof

/-! ## Driver registry (`datacube/drivers/manager.py`) -/

/-- A registered storage-driver plugin, as seen by the manager:
its `name` (dict key) and the URI scheme it claims. -/
structure Driver where
  name : String
  uri_scheme : String
  deriving DecidableEq, Repr

/-- Model of Python `s.split(c, 1)`: split at the first occurrence of `c`,
producing two parts when `c` occurs in `s` and the singleton `[s]` otherwise. -/
def pySplit1 (s : List Char) (c : Char) : List (List Char) :=
  if s.contains c then [s.takeWhile (fun x => x ≠ c), (s.dropWhile (fun x => x ≠ c)).tail]
  else [s]

/-- Scheme extraction of `DriverManager.get_driver_by_scheme`
(`manager.py` lines 252-258): start from `"file"`, and when the uri list is
non-empty and `uris[0].split(':', 1)` has two parts, take the first part. -/
def extractScheme (uris : List String) : String :=
  match uris with
  | [] => "file"
  | u :: _ =>
    let parts := pySplit1 u.toList ':'
    if parts.length = 2 then String.mk (parts.headI) else "file"

/-- `DriverManager.get_driver_by_scheme` (`manager.py` lines 234-262):
scan registered drivers in order, return the first whose `uri_scheme`
equals the extracted scheme, and raise `ValueError` when none claims it. -/
def get_driver_by_scheme (drivers : List Driver) (uris : List String) :
    Except String Driver :=
  match drivers.find? (fun d => extractScheme uris = d.uri_scheme) with
  | some d => Except.ok d
  | none => Except.error ("No driver found for scheme " ++ extractScheme uris)

/-- A plugin descriptor as discovered by `reload_drivers`: whether its
`__init__` exposes `DRIVER_SPEC`, whether its module imports, whether the
class subclasses `Driver`, the result of the `requirements_satisfied()`
probe, and the driver it would register. -/
structure PluginSpec where
  hasSpec : Bool
  importOk : Bool
  isDriverSubclass : Bool
  reqSatisfied : Bool
  driver : Driver
  deriving DecidableEq, Repr

/-- Python dict assignment `d[k] = v`: overwrite in place when `k` is
present, append otherwise. -/
def dictInsert (d : List (String × Driver)) (k : String) (v : Driver) :
    List (String × Driver) :=
  if d.any (fun kv => kv.1 = k) then
    d.map (fun kv => if kv.1 = k then (k, v) else kv)
  else d ++ [(k, v)]

/-- The conjunction of the four registration checks of `reload_drivers`
(`manager.py` lines 157-170): `DRIVER_SPEC` present, module import
succeeded, class subclasses `Driver`, and `requirements_satisfied()`
returned true. -/
def pluginPasses (p : PluginSpec) : Bool :=
  p.hasSpec && p.importOk && p.isDriverSubclass && p.reqSatisfied

/-- The registration loop of `DriverManager.reload_drivers`
(`manager.py` lines 154-173): a plugin is registered (keyed by its name)
exactly when it passes all four checks; every failing plugin is skipped and
the loop continues. -/
def registerPlugins (ps : List PluginSpec) : List (String × Driver) :=
  ps.foldl
    (fun acc p =>
      if pluginPasses p then dictInsert acc p.driver.name p.driver
      else acc)
    []

/-- `DriverManager.reload_drivers` (`manager.py` lines 130-176): run the
registration loop, then raise `RuntimeError` when fewer than one driver
was registered. -/
def reload_drivers (ps : List PluginSpec) :
    Except String (List (String × Driver)) :=
  let drivers := registerPlugins ps
  if drivers.length < 1 then
    Except.error "No plugin driver found, Datacube cannot operate."
  else Except.ok drivers

/-- A driver's index as the manager's `close` sees it: only the identity of
its underlying DB connection (`driver.index._db`) matters. -/
structure IndexConn where
  conn : Nat
  deriving DecidableEq, Repr

/-- The manager state that `DriverManager.close` reads: the indexes of the
registered drivers (dict-value order) and the manager's generic index. -/
structure ManagerState where
  driverIndexes : List IndexConn
  genericIndex : IndexConn
  deriving DecidableEq, Repr

/-- `DriverManager.close` (`manager.py` lines 117-128): for every registered
driver whose index connection differs from the generic index's connection,
call `driver.index.close()`; then call `close()` on the generic index. The
result lists the connection identities receiving a `close()` call, in
order. -/
def closeCalls (s : ManagerState) : List Nat :=
  (s.driverIndexes.filter (fun d => d.conn ≠ s.genericIndex.conn)).map (fun d => d.conn)
    ++ [s.genericIndex.conn]

/-- The manager state that `set_current_driver` reads and writes: the
registered-drivers dict and the current driver. -/
structure CurrentState where
  drivers : List (String × Driver)
  current : Option Driver
  deriving DecidableEq, Repr

/-- `DriverManager.set_current_driver` (`manager.py` lines 178-191): raise
`ValueError` when `driver_name` is not a key of the registered-drivers dict
(`None` is never a string key, so passing `None` always raises, despite the
docstring), otherwise assign the dict entry as current driver. -/
def set_current_driver (s : CurrentState) (driver_name : Option String) :
    Except String CurrentState :=
  let found : Option (String × Driver) :=
    match driver_name with
    | none => none
    | some n => s.drivers.find? (fun kv => kv.1 = n)
  match found with
  | none => Except.error "Default driver is not available"
  | some kv => Except.ok { s with current := some kv.2 }

/-! ## Dataset-info traversal (`datacube/ui/common.py`) -/

/-- The lineage data `build_dataset_info` traverses: for a dataset id, its
named sources (`dataset.sources`) and the ids of datasets derived from it
(`index.datasets.get_derived`). Arbitrary functions, so cyclic lineage
graphs are representable. -/
structure LineageGraph where
  sources : Nat → List (String × Nat)
  derived : Nat → List Nat

/-- The nested structure `build_dataset_info` returns: the dataset id plus
the recursively built source and derived infos (empty lists standing for
the absent `sources`/`derived` keys). -/
inductive DatasetInfo where
  | node (id : Nat) (sources : List (String × DatasetInfo))
      (derived : List DatasetInfo)

/-- `build_dataset_info` (`common.py` lines 79-108): build the info record;
only when `depth < max_depth` recurse into sources (with
`show_sources=True, show_derived=False`) and into derived datasets (with
`show_sources=False, show_derived=True`), at `depth + 1`. -/
def build_dataset_info (g : LineageGraph) (i : Nat)
    (show_sources show_derived : Bool) (depth max_depth : Nat) : DatasetInfo :=
  if _h : depth < max_depth then
    DatasetInfo.node i
      (if show_sources then
        (g.sources i).map (fun kv =>
          (kv.1, build_dataset_info g kv.2 true false (depth + 1) max_depth))
       else [])
      (if show_derived then
        (g.derived i).map (fun d =>
          build_dataset_info g d false true (depth + 1) max_depth)
       else [])
  else DatasetInfo.node i [] []
termination_by max_depth - depth
decreasing_by all_goals omega

mutual

/-- Height of a `DatasetInfo` tree: the number of nesting levels. -/
def DatasetInfo.height : DatasetInfo → Nat
  | .node _ ss ds => 1 + Nat.max (heightSources ss) (heightDerived ds)

/-- Greatest height among the source sub-infos. -/
def heightSources : List (String × DatasetInfo) → Nat
  | [] => 0
  | kv :: rest => Nat.max (DatasetInfo.height kv.2) (heightSources rest)

/-- Greatest height among the derived sub-infos. -/
def heightDerived : List DatasetInfo → Nat
  | [] => 0
  | i :: rest => Nat.max (DatasetInfo.height i) (heightDerived rest)

end

/-! ## File CLI exit codes (`datacube/scripts/file_cli.py`) -/

/-- Inner loop of `archive_cmd` (`file_cli.py` lines 84-99) without
`--dry-run`: `archive_count` counts the datasets at the file's uri for
which `index.datasets.archive_location` returned true. A file is given by
the list of those return values, in iteration order (empty list = no
dataset found at that uri). -/
def archiveCount (results : List Bool) : Nat :=
  results.foldl (fun c r => if r then c + 1 else c) 0

/-- `archive_cmd` (`file_cli.py` lines 79-101): per file, increment
`not_found_count` when `archive_count` stayed 0; exit with
`not_found_count`. -/
def archive_cmd (files : List (List Bool)) : Nat :=
  files.foldl (fun nf rs => if archiveCount rs = 0 then nf + 1 else nf) 0

/-- Inner loop of `restore_cmd` (`file_cli.py` lines 114-128) without
`--dry-run`: the `if restore_count == 0` test sits inside the per-dataset
loop, so it runs once per dataset. Returns what this file adds to
`not_found_count`, given the `restore_location` return values and the
running `restore_count`. -/
def restoreLoop : List Bool → Nat → Nat
  | [], _ => 0
  | r :: rest, rc =>
    let rc2 := if r then rc + 1 else rc
    (if rc2 = 0 then 1 else 0) + restoreLoop rest rc2

/-- `restore_cmd` (`file_cli.py` lines 109-130): accumulate the per-file
contributions of the inner loop; exit with `not_found_count`. -/
def restore_cmd (files : List (List Bool)) : Nat :=
  files.foldl (fun nf rs => nf + restoreLoop rs 0) 0

/-- The exit code the claim describes: the number of input files for which
no location change was made (every per-dataset call returned false, or no
dataset was found). -/
def filesWithNoChange (files : List (List Bool)) : Nat :=
  (files.filter (fun rs => rs.all (fun r => !r))).length

/-! ## Field compiler (modelled; exact output fixed by
`test_field_expression_unchanged` in
`integration_tests/index/test_config_docs.py`) -/

/-- Modelled from the spec: the json-path extraction expression of the
field compiler (`datacube.index.postgres._fields`, not under `src/`):
`agdc.dataset.metadata #>> '\x7boffset parts\x7d'`, as asserted verbatim by
`test_field_expression_unchanged`. -/
def jsonExtractSql (offset : List String) : String :=
  "agdc.dataset.metadata #>> \x27\x7b" ++ String.intercalate ", " offset ++ "\x7d\x27"

/-- Modelled from the spec: numeric extraction casts the text value to
double precision. -/
def numericExtractSql (offset : List String) : String :=
  "CAST(" ++ jsonExtractSql offset ++ " AS DOUBLE PRECISION)"

/-- Modelled from the spec: integer extraction casts the text value to
integer. -/
def intExtractSql (offset : List String) : String :=
  "CAST(" ++ jsonExtractSql offset ++ " AS INTEGER)"

/-- Modelled from the spec: datetime extraction normalises through
`agdc.common_timestamp` before comparison. -/
def timeExtractSql (offset : List String) : String :=
  "agdc.common_timestamp(" ++ jsonExtractSql offset ++ ")"

/-- SQL `least(...)` over the given rendered arguments. -/
def leastSql (args : List String) : String :=
  "least(" ++ String.intercalate ", " args ++ ")"

/-- SQL `greatest(...)` over the given rendered arguments. -/
def greatestSql (args : List String) : String :=
  "greatest(" ++ String.intercalate ", " args ++ ")"

/-- Modelled from the spec: the field compiler's output for a
`numeric-range` field (`NumericRangeDocField`, not under `src/`):
`agdc.float8range(least(min offsets), greatest(max offsets), '[]')` —
inclusive at both ends. -/
def numericRangeSql (minOffsets maxOffsets : List (List String)) : String :=
  "agdc.float8range(" ++ leastSql (minOffsets.map numericExtractSql) ++ ", "
    ++ greatestSql (maxOffsets.map numericExtractSql) ++ ", \x27[]\x27)"

/-- Modelled from the spec: the field compiler's output for a
`datetime-range` field: `tstzrange(least(min offsets),
greatest(max offsets), '[]')` — inclusive at both ends. -/
def datetimeRangeSql (minOffsets maxOffsets : List (List String)) : String :=
  "tstzrange(" ++ leastSql (minOffsets.map timeExtractSql) ++ ", "
    ++ greatestSql (maxOffsets.map timeExtractSql) ++ ", \x27[]\x27)"

/-- One folding step of SQL `least`: combine the next value with the
running minimum. -/
def minStep (x : Int) (acc : Option Int) : Option Int :=
  match acc with
  | none => some x
  | some y => some (min x y)

/-- One folding step of SQL `greatest`: combine the next value with the
running maximum. -/
def maxStep (x : Int) (acc : Option Int) : Option Int :=
  match acc with
  | none => some x
  | some y => some (max x y)

instance : LeftCommutative minStep :=
  ⟨by
    intro a b c
    cases c with
    | none => simp [minStep, min_comm]
    | some y => simp [minStep, min_left_comm]⟩

instance : LeftCommutative maxStep :=
  ⟨by
    intro a b c
    cases c with
    | none => simp [maxStep, max_comm]
    | some y => simp [maxStep, max_left_comm]⟩

/-- The four latitude corner offsets of the default `eo` metadata type, in
the declaration order fixed by `test_field_expression_unchanged`. -/
def latCorners : List (List String) :=
  [["extent", "coord", "ur", "lat"], ["extent", "coord", "lr", "lat"],
   ["extent", "coord", "ul", "lat"], ["extent", "coord", "ll", "lat"]]

/-- The lower-bound offsets of the `eo` `time` field
(`test_field_expression_unchanged`): from and center timestamps. -/
def timeMinOffsets : List (List String) :=
  [["extent", "from_dt"], ["extent", "center_dt"]]

/-- The upper-bound offsets of the `eo` `time` field
(`test_field_expression_unchanged`): to and center timestamps. -/
def timeMaxOffsets : List (List String) :=
  [["extent", "to_dt"], ["extent", "center_dt"]]

/-- Semantics of SQL `least` over the values extracted at the offsets of a
metadata document `v`: the minimum, `none` for an empty offset list. -/
def leastVal (v : List String → Int) (offs : List (List String)) : Option Int :=
  (offs.map v).foldr minStep none

/-- Semantics of SQL `greatest` over the values extracted at the offsets of
a metadata document `v`: the maximum, `none` for an empty offset list. -/
def greatestVal (v : List String → Int) (offs : List (List String)) : Option Int :=
  (offs.map v).foldr maxStep none

/-- The compiled range of a range field backed by the single offset list
`offs`, evaluated on a document `v`: lower bound, upper bound, and the two
inclusivity flags of `'[]'`. -/
def compiledRange (v : List String → Int) (offs : List (List String)) :
    Option Int × Option Int × Bool × Bool :=
  (leastVal v offs, greatestVal v offs, true, true)

/-! ## Registries (modelled; behaviour fixed by `test_config_docs.py`) -/

/-- A normalised definition document body: an ordered list of key/value
pairs. -/
abbrev DocBody := List (String × String)

/-- A registry of named product / metadata-type definitions. -/
structure Registry where
  docs : List (String × DocBody)
  deriving DecidableEq, Repr

/-- Modelled from the spec: `add_document` of the product and metadata-type
registries (`datacube.index._api`, not under `src/`; behaviour asserted by
`test_idempotent_add_dataset_type`): when a definition with the same name
is stored, succeed silently when it is equivalent and raise `ValueError`
when it differs, never overwriting; otherwise insert the new
definition. -/
def add_document (r : Registry) (name : String) (body : DocBody) :
    Except String Registry :=
  match r.docs.find? (fun kv => kv.1 = name) with
  | some kv =>
      if kv.2 = body then Except.ok r
      else Except.error ("Definition differs from the version stored for " ++ name)
  | none => Except.ok { docs := r.docs ++ [(name, body)] }

/-- A searchable-field specification inside a definition: its type tag and
its extraction offsets. -/
structure FieldSpec where
  ftype : String
  offsets : List (List String)
  deriving DecidableEq, Repr

/-- A product / metadata-type definition as the update safety check sees
it: its searchable fields and its match-rule document. -/
structure Definition where
  fields : List (String × FieldSpec)
  matchRules : List (String × String)
  deriving DecidableEq, Repr

/-- A registry of named definitions with fields and match rules. -/
structure DefRegistry where
  docs : List (String × Definition)
  deriving DecidableEq, Repr

/-- Modelled from the spec: the unsafe-change classification of
`update_document` (`datacube.index._api` / `datacube.utils.changes`, not
under `src/`): a change is unsafe when an existing field's type or
extraction offsets change, or when the match rules are tightened (a rule
appears in the incoming definition that the stored one does not have). -/
def hasUnsafeChange (stored incoming : Definition) : Bool :=
  (stored.fields.any (fun nf =>
    match incoming.fields.find? (fun kv => kv.1 = nf.1) with
    | some kv => kv.2 ≠ nf.2
    | none => false))
  || incoming.matchRules.any (fun kv => !(stored.matchRules.contains kv))

/-- Modelled from the spec: `update_document(def, allow_unsafe_updates)`
(behaviour asserted by `test_update_dataset_type` and
`test_update_metadata_type`): diff the stored and incoming definitions;
when an unsafe change is present and unsafe updates are not allowed, raise
`ValueError` leaving the stored definition unchanged; otherwise replace the
stored definition with the incoming one. -/
def update_document (r : DefRegistry) (name : String) (incoming : Definition)
    (allow_unsafe_updates : Bool) : Except String DefRegistry :=
  match r.docs.find? (fun kv => kv.1 = name) with
  | none => Except.error ("Unknown definition " ++ name)
  | some kv =>
      if hasUnsafeChange kv.2 incoming && !allow_unsafe_updates then
        Except.error ("Unsafe changes in " ++ name)
      else
        Except.ok
          { docs := r.docs.map (fun kv2 => if kv2.1 = name then (name, incoming) else kv2) }

/-! ## Search projection (modelled; behaviour fixed by
`test_search_returning_rows` in `integration_tests/index/test_search.py`) -/

/-- A dataset as the search projection sees it: its id and its location
list. -/
structure SearchDataset where
  id : Nat
  uris : List String
  deriving DecidableEq, Repr

/-- Modelled from the spec: `search_returning` (`datacube.index._api`, not
under `src/`) with a `uri` field among the requested fields: one result row
per (matching dataset, location) pair, pairing the dataset id with one of
its uris. -/
def search_returning_uri (store : List SearchDataset)
    (matchesQ : SearchDataset → Bool) : List (Nat × String) :=
  (store.filter matchesQ).flatMap (fun d => d.uris.map (fun u => (d.id, u)))

/-- Claim C4: driver routing inspects only the first uri; the scheme is the
text before the first `:` of the first uri, or `file` when the list is
empty or the first uri has no scheme; `get_driver_by_scheme` returns a
registered driver whose `uri_scheme` equals that scheme and raises a
lookup error when no registered driver claims it. -/
theorem get_driver_by_scheme_spec (drivers : List Driver) (uris : List String) :
    (extractScheme uris =
      match uris with
      | [] => "file"
      | u :: _ =>
        if u.toList.contains ':' then
          String.mk (u.toList.takeWhile (fun c => c ≠ ':'))
        else "file")
    ∧ (∀ u rest rest2,
        get_driver_by_scheme drivers (u :: rest) = get_driver_by_scheme drivers (u :: rest2))
    ∧ (∀ d, get_driver_by_scheme drivers uris = Except.ok d →
        d ∈ drivers ∧ d.uri_scheme = extractScheme uris)
    ∧ ((∀ d ∈ drivers, d.uri_scheme ≠ extractScheme uris) →
        ∃ e, get_driver_by_scheme drivers uris = Except.error e) := by
  refine ⟨?_, ?_, ?_, ?_⟩
  · cases uris with
    | nil => rfl
    | cons u rest =>
      simp only [extractScheme, pySplit1]
      by_cases h : ':' ∈ u.data
      · simp [h]
      · simp [h]
  · intro u rest rest2
    rfl
  · intro d hd
    unfold get_driver_by_scheme at hd
    cases hfind : (drivers.find? (fun d => extractScheme uris = d.uri_scheme)) with
    | none => rw [hfind] at hd; exact absurd hd (by simp)
    | some d2 =>
      rw [hfind] at hd
      simp only [Except.ok.injEq] at hd
      subst hd
      refine ⟨List.mem_of_find?_eq_some hfind, ?_⟩
      have := List.find?_some hfind
      simp only [decide_eq_true_eq] at this
      exact this.symm
  · intro hall
    unfold get_driver_by_scheme
    have hnone : drivers.find? (fun d => extractScheme uris = d.uri_scheme) = none := by
      rw [List.find?_eq_none]
      intro d hd
      simp only [decide_eq_true_eq]
      exact fun h => hall d hd h.symm
    rw [hnone]
    exact ⟨_, rfl⟩

/-- Witness for claim C4 at a concrete registry and uri list. -/
theorem get_driver_by_scheme_spec_witness :
    (⟨"S3", "s3"⟩ : Driver) ∈ [(⟨"NetCDF CF", "file"⟩ : Driver), ⟨"S3", "s3"⟩]
    ∧ (Driver.mk "S3" "s3").uri_scheme = extractScheme ["s3://bucket/key"] :=
  (get_driver_by_scheme_spec [⟨"NetCDF CF", "file"⟩, ⟨"S3", "s3"⟩]
    ["s3://bucket/key"]).2.2.1 ⟨"S3", "s3"⟩ (by rfl)

/-- Claim C10: `set_current_driver` with a name not among the registered
drivers raises a `ValueError` before any assignment — including when the
name is `None`, despite the docstring — and with a registered name the
current driver becomes exactly the driver registered under that name. -/
theorem set_current_driver_spec (s : CurrentState) (driver_name : Option String) :
    (set_current_driver s none = Except.error "Default driver is not available")
    ∧ (∀ n, driver_name = some n →
        s.drivers.find? (fun kv => kv.1 = n) = none →
        set_current_driver s driver_name = Except.error "Default driver is not available")
    ∧ (∀ n kv, driver_name = some n →
        s.drivers.find? (fun kv2 => kv2.1 = n) = some kv →
        set_current_driver s driver_name = Except.ok { s with current := some kv.2 }) := by
  refine ⟨rfl, ?_, ?_⟩
  · intro n hn hfind
    subst hn
    unfold set_current_driver
    dsimp only
    rw [hfind]
  · intro n kv hn hfind
    subst hn
    unfold set_current_driver
    dsimp only
    rw [hfind]

/-- Witness for claim C10 at a concrete two-driver registry. -/
theorem set_current_driver_spec_witness :
    set_current_driver
        ⟨[("NetCDF CF", ⟨"NetCDF CF", "file"⟩), ("S3", ⟨"S3", "s3"⟩)], none⟩
        (some "S3")
      = Except.ok ⟨[("NetCDF CF", ⟨"NetCDF CF", "file"⟩), ("S3", ⟨"S3", "s3"⟩)],
          some ⟨"S3", "s3"⟩⟩ :=
  (set_current_driver_spec
      ⟨[("NetCDF CF", ⟨"NetCDF CF", "file"⟩), ("S3", ⟨"S3", "s3"⟩)], none⟩
      (some "S3")).2.2 "S3" ("S3", ⟨"S3", "s3"⟩) rfl (by rfl)

/-- The archive counter is zero exactly when every `archive_location` call
returned false. -/
theorem archiveCount_eq_zero_iff (rs : List Bool) :
    (archiveCount rs = 0) ↔ (rs.all (fun r => !r) = true) := by
  unfold archiveCount
  have key : ∀ (l : List Bool) (n : Nat),
      l.foldl (fun c r => if r then c + 1 else c) n = n + l.countP id := by
    intro l
    induction l with
    | nil => simp
    | cons r rest ih =>
      intro n
      cases r
      · simp [List.countP_cons, ih]
      · simp [List.countP_cons, ih]
        omega
  rw [key rs 0, List.all_eq_true]
  simp only [Nat.zero_add]
  rw [List.countP_eq_zero]
  simp

/-- Claim C9: the `file archive` command exits with the number of input
files for which no location change was made; `file restore` does not — its
`restore_count == 0` check sits inside the per-dataset loop, so a file with
no datasets contributes 0 (claim: 1) and a file whose first restore fails
but whose second succeeds contributes 1 (claim: 0). -/
theorem file_cli_exit_codes :
    (∀ files, archive_cmd files = filesWithNoChange files)
    ∧ restore_cmd [[]] = 0 ∧ filesWithNoChange [[]] = 1
    ∧ restore_cmd [[false, true]] = 1 ∧ filesWithNoChange [[false, true]] = 0
    ∧ archive_cmd [[false, true]] = 0 := by
  refine ⟨?_, by decide, by decide, by decide, by decide, by decide⟩
  intro files
  unfold archive_cmd filesWithNoChange
  have key : ∀ (fs : List (List Bool)) (n : Nat),
      fs.foldl (fun nf rs => if archiveCount rs = 0 then nf + 1 else nf) n
        = n + (fs.filter (fun rs => rs.all (fun r => !r))).length := by
    intro fs
    induction fs with
    | nil => simp
    | cons rs rest ih =>
      intro n
      by_cases h : archiveCount rs = 0
      · have hall := (archiveCount_eq_zero_iff rs).mp h
        simp [List.filter_cons, h, hall, ih]
        omega
      · have hall : ¬(rs.all (fun r => !r) = true) :=
          fun hc => h ((archiveCount_eq_zero_iff rs).mpr hc)
        simp [List.filter_cons, h, hall, ih]
  rw [key files 0]
  omega

/-- Every entry of a Python-dict insertion is the inserted pair or an
original entry. -/
theorem mem_dictInsert (d : List (String × Driver)) (k : String) (v : Driver) :
    ∀ kv ∈ dictInsert d k v, kv = (k, v) ∨ kv ∈ d := by
  intro kv hkv
  unfold dictInsert at hkv
  by_cases h : d.any (fun kv => kv.1 = k)
  · rw [if_pos h] at hkv
    obtain ⟨kv0, hkv0, heq⟩ := List.mem_map.mp hkv
    by_cases h0 : kv0.1 = k
    · rw [if_pos (by simp [h0])] at heq
      exact Or.inl heq.symm
    · rw [if_neg (by simp [h0])] at heq
      exact Or.inr (heq ▸ hkv0)
  · rw [if_neg h] at hkv
    rcases List.mem_append.mp hkv with h1 | h1
    · exact Or.inr h1
    · exact Or.inl (List.mem_singleton.mp h1)

/-- Every driver registered by the discovery loop comes from a plugin that
passed all four checks. -/
theorem registerPlugins_mem (ps : List PluginSpec) :
    ∀ kv ∈ registerPlugins ps,
      ∃ p ∈ ps, kv = (p.driver.name, p.driver) ∧ pluginPasses p = true := by
  unfold registerPlugins
  have key : ∀ (l : List PluginSpec) (acc : List (String × Driver)) (kv : String × Driver),
      kv ∈ l.foldl
        (fun acc p =>
          if pluginPasses p then dictInsert acc p.driver.name p.driver else acc) acc →
      kv ∈ acc ∨ ∃ p ∈ l, kv = (p.driver.name, p.driver) ∧ pluginPasses p = true := by
    intro l
    induction l with
    | nil => exact fun acc kv h => Or.inl h
    | cons p rest ih =>
      intro acc kv h
      simp only [List.foldl_cons] at h
      rcases ih _ kv h with hacc | ⟨q, hq, hkv⟩
      · by_cases hp : pluginPasses p = true
        · rw [if_pos hp] at hacc
          rcases mem_dictInsert _ _ _ kv hacc with heq | hmem
          · exact Or.inr ⟨p, List.mem_cons_self p rest, heq, hp⟩
          · exact Or.inl hmem
        · rw [if_neg hp] at hacc
          exact Or.inl hacc
      · exact Or.inr ⟨q, List.mem_cons_of_mem p hq, hkv⟩
  intro kv h
  rcases key ps [] kv h with hacc | hfound
  · exact absurd hacc (List.not_mem_nil kv)
  · exact hfound

/-- Claim C5: discovery registers only plugins that pass the
`requirements_satisfied()` probe, skips an individual plugin whose module
fails to import or which fails the probe, without aborting (the rest register
as if it were absent), and raises a fatal `RuntimeError` exactly when zero
plugins end up registered. -/
theorem reload_drivers_spec (ps : List PluginSpec) :
    (∀ kv ∈ registerPlugins ps,
        ∃ p ∈ ps, kv = (p.driver.name, p.driver) ∧ p.reqSatisfied = true)
    ∧ (∀ ps1 p ps2, (p.importOk = false ∨ p.reqSatisfied = false) →
        registerPlugins (ps1 ++ p :: ps2) = registerPlugins (ps1 ++ ps2))
    ∧ (registerPlugins ps = [] ↔ ∃ e, reload_drivers ps = Except.error e)
    ∧ (registerPlugins ps ≠ [] → reload_drivers ps = Except.ok (registerPlugins ps)) := by
  refine ⟨?_, ?_, ?_, ?_⟩
  · intro kv hkv
    obtain ⟨p, hp, heq, hpass⟩ := registerPlugins_mem ps kv hkv
    refine ⟨p, hp, heq, ?_⟩
    unfold pluginPasses at hpass
    simp only [Bool.and_eq_true] at hpass
    exact hpass.2
  · intro ps1 p ps2 hfail
    unfold registerPlugins
    rw [List.foldl_append, List.foldl_append, List.foldl_cons]
    have hp : pluginPasses p = false := by
      unfold pluginPasses
      rcases hfail with h | h <;> simp [h]
    rw [if_neg (by simp [hp])]
  · constructor
    · intro h
      refine ⟨"No plugin driver found, Datacube cannot operate.", ?_⟩
      unfold reload_drivers
      rw [h]
      rfl
    · intro ⟨e, he⟩
      unfold reload_drivers at he
      by_cases h : (registerPlugins ps).length < 1
      · exact List.length_eq_zero.mp (by omega)
      · rw [if_neg h] at he
        exact absurd he (by simp)
  · intro h
    unfold reload_drivers
    have hlen : ¬(registerPlugins ps).length < 1 := by
      have := List.length_pos.mpr h
      omega
    rw [if_neg hlen]

/-- Witness for claim C5 at concrete plugin lists: a plugin whose module
fails to import is skipped without aborting, and a round registering zero
plugins raises. -/
theorem reload_drivers_spec_witness :
    registerPlugins
        [⟨true, true, true, true, ⟨"NetCDF CF", "file"⟩⟩,
         ⟨true, false, true, true, ⟨"S3", "s3"⟩⟩]
      = registerPlugins [⟨true, true, true, true, ⟨"NetCDF CF", "file"⟩⟩]
    ∧ ∃ e, reload_drivers [⟨true, true, true, false, ⟨"S3", "s3"⟩⟩] = Except.error e :=
  ⟨(reload_drivers_spec []).2.1
      [⟨true, true, true, true, ⟨"NetCDF CF", "file"⟩⟩]
      ⟨true, false, true, true, ⟨"S3", "s3"⟩⟩ [] (Or.inl rfl),
   (reload_drivers_spec [⟨true, true, true, false, ⟨"S3", "s3"⟩⟩]).2.2.1.mp rfl⟩

/-- Count of close calls contributed by the driver loop: zero for the
generic connection, one per driver holding the connection otherwise. -/
theorem count_closeCalls_drivers (l : List IndexConn) (g c : Nat) :
    ((l.filter (fun d => d.conn ≠ g)).map (fun d => d.conn)).count c
      = if c = g then 0 else (l.filter (fun d => d.conn = c)).length := by
  induction l with
  | nil => simp
  | cons d rest ih =>
    by_cases hdg : d.conn = g
    · rw [List.filter_cons]
      rw [if_neg (by simp [hdg])]
      rw [ih]
      by_cases hcg : c = g
      · simp [hcg]
      · rw [if_neg hcg, if_neg hcg]
        rw [List.filter_cons]
        rw [if_neg (by simp only [decide_eq_true_eq]; exact fun hc => hcg (hdg ▸ hc ▸ rfl))]
    · rw [List.filter_cons]
      rw [if_pos (by simp [hdg])]
      rw [List.map_cons, List.count_cons, ih]
      by_cases hcg : c = g
      · rw [if_pos hcg, if_pos hcg]
        have hdc : ¬(d.conn = c) := fun hc => hdg (hcg ▸ hc)
        simp [hdc]
      · rw [if_neg hcg, if_neg hcg]
        rw [List.filter_cons]
        by_cases hdc : d.conn = c
        · rw [if_pos (by simp [hdc])]
          simp [hdc]
        · rw [if_neg (by simp [hdc])]
          simp [hdc]
/-- Counterexample to claim C6: in a registry state where two drivers'
indexes share connection 1 while the generic index holds connection 0,
`close()` emits `close` calls `[1, 1, 0]` — the shared connection is
closed twice, not once. -/
theorem close_shared_connection_counterexample :
    closeCalls { driverIndexes := [⟨1⟩, ⟨1⟩], genericIndex := ⟨0⟩ } = [1, 1, 0]
    ∧ (closeCalls { driverIndexes := [⟨1⟩, ⟨1⟩], genericIndex := ⟨0⟩ }).count 1 = 2 := by
  exact ⟨rfl, rfl⟩

/-- Claim C6 (amended): `close()` deduplicates only against the generic
index's connection — it closes the generic connection exactly once, closes
any other connection once per driver holding it, and closes every
connection present in the state at least once. -/
theorem close_dedups_only_generic (s : ManagerState) :
    ((closeCalls s).count s.genericIndex.conn = 1)
    ∧ (∀ c, c ≠ s.genericIndex.conn →
        (closeCalls s).count c = (s.driverIndexes.filter (fun d => d.conn = c)).length)
    ∧ (∀ c, (c = s.genericIndex.conn ∨ ∃ d ∈ s.driverIndexes, d.conn = c) →
        1 ≤ (closeCalls s).count c) := by
  have hbase : ∀ c, (closeCalls s).count c
      = ((s.driverIndexes.filter (fun d => d.conn ≠ s.genericIndex.conn)).map
          (fun d => d.conn)).count c
        + (if c = s.genericIndex.conn then 1 else 0) := by
    intro c
    unfold closeCalls
    rw [List.count_append]
    congr 1
    by_cases h : c = s.genericIndex.conn
    · simp [h, List.count_singleton]
    · simp [List.count_singleton, h]
  refine ⟨?_, ?_, ?_⟩
  · rw [hbase, count_closeCalls_drivers]
    simp
  · intro c hc
    rw [hbase, count_closeCalls_drivers]
    simp [hc]
  · intro c hc
    rcases hc with hc | ⟨d, hd, hdc⟩
    · rw [hbase, count_closeCalls_drivers]
      simp [hc]
    · by_cases hcg : c = s.genericIndex.conn
      · rw [hbase, count_closeCalls_drivers]
        simp [hcg]
      · rw [hbase, count_closeCalls_drivers]
        rw [if_neg hcg, if_neg hcg]
        have hmem : d ∈ s.driverIndexes.filter (fun d2 => d2.conn = c) :=
          List.mem_filter.mpr ⟨hd, by simp [hdc]⟩
        have := List.length_pos.mpr (List.ne_nil_of_mem hmem)
        omega

/-- Witness for claim C6 (amended) at a concrete state: a driver connection
distinct from the generic one is closed at least once. -/
theorem close_dedups_only_generic_witness :
    1 ≤ (closeCalls { driverIndexes := [⟨0⟩, ⟨2⟩], genericIndex := ⟨0⟩ }).count 2 :=
  (close_dedups_only_generic
      { driverIndexes := [⟨0⟩, ⟨2⟩], genericIndex := ⟨0⟩ }).2.2 2
    (Or.inr ⟨⟨2⟩, by simp, rfl⟩)

/-- `heightSources` is bounded when every member is. -/
theorem heightSources_le {l : List (String × DatasetInfo)} {k : Nat}
    (h : ∀ kv ∈ l, DatasetInfo.height kv.2 ≤ k) : heightSources l ≤ k := by
  induction l with
  | nil => simp [heightSources]
  | cons kv rest ih =>
    rw [heightSources]
    exact Nat.max_le.mpr ⟨h kv (List.mem_cons_self kv rest),
      ih fun kv2 h2 => h kv2 (List.mem_cons_of_mem kv h2)⟩

/-- `heightDerived` is bounded when every member is. -/
theorem heightDerived_le {l : List DatasetInfo} {k : Nat}
    (h : ∀ d ∈ l, DatasetInfo.height d ≤ k) : heightDerived l ≤ k := by
  induction l with
  | nil => simp [heightDerived]
  | cons d rest ih =>
    rw [heightDerived]
    exact Nat.max_le.mpr ⟨h d (List.mem_cons_self d rest),
      ih fun d2 h2 => h d2 (List.mem_cons_of_mem d h2)⟩

/-- Fuel-indexed height bound for the lineage traversal. -/
theorem build_dataset_info_height_aux (g : LineageGraph) (max_depth : Nat) :
    ∀ (fuel depth i : Nat) (ss sd : Bool), max_depth - depth ≤ fuel →
      DatasetInfo.height (build_dataset_info g i ss sd depth max_depth)
        ≤ max_depth - depth + 1 := by
  intro fuel
  induction fuel with
  | zero =>
    intro depth i ss sd hf
    rw [build_dataset_info, dif_neg (by omega)]
    simp [DatasetInfo.height, heightSources, heightDerived]
  | succ n ih =>
    intro depth i ss sd hf
    by_cases h : depth < max_depth
    · rw [build_dataset_info, dif_pos h]
      simp only [DatasetInfo.height]
      have hA : heightSources
          (if ss = true then
            (g.sources i).map (fun kv =>
              (kv.1, build_dataset_info g kv.2 true false (depth + 1) max_depth))
           else []) ≤ max_depth - (depth + 1) + 1 := by
        split
        · apply heightSources_le
          intro kv hkv
          obtain ⟨kv0, _, hkv0⟩ := List.mem_map.mp hkv
          rw [← hkv0]
          exact ih (depth + 1) kv0.2 true false (by omega)
        · simp [heightSources]
      have hB : heightDerived
          (if sd = true then
            (g.derived i).map (fun d =>
              build_dataset_info g d false true (depth + 1) max_depth)
           else []) ≤ max_depth - (depth + 1) + 1 := by
        split
        · apply heightDerived_le
          intro d hd
          obtain ⟨d0, _, hd0⟩ := List.mem_map.mp hd
          rw [← hd0]
          exact ih (depth + 1) d0 false true (by omega)
        · simp [heightDerived]
      have hmax := Nat.max_le.mpr ⟨hA, hB⟩
      have harith : max_depth - (depth + 1) + 1 ≤ max_depth - depth := by omega
      exact le_trans (Nat.add_le_add_left (le_trans hmax harith) 1) (by omega)
    · rw [build_dataset_info, dif_neg h]
      simp [DatasetInfo.height, heightSources, heightDerived]

/-- Claim C8: the recursive lineage traversal of `build_dataset_info` is a
total function that recurses only while `depth < max_depth`, incrementing
`depth` per level, so on every lineage graph — cyclic ones included — the
nesting depth of the result never exceeds `max_depth - depth + 1`, hence
never exceeds `max_depth` from the initial call at `depth = 1` with
`0 < max_depth`. -/
theorem build_dataset_info_depth_guard (g : LineageGraph) (i : Nat)
    (ss sd : Bool) (depth max_depth : Nat) :
    (DatasetInfo.height (build_dataset_info g i ss sd depth max_depth)
        ≤ max_depth - depth + 1)
    ∧ (0 < max_depth →
        DatasetInfo.height (build_dataset_info g i ss sd 1 max_depth) ≤ max_depth)
    ∧ (max_depth ≤ depth →
        build_dataset_info g i ss sd depth max_depth = DatasetInfo.node i [] []) := by
  refine ⟨build_dataset_info_height_aux g max_depth (max_depth - depth) depth i ss sd
      (Nat.le_refl _), ?_, ?_⟩
  · intro hpos
    have := build_dataset_info_height_aux g max_depth (max_depth - 1) 1 i ss sd (Nat.le_refl _)
    omega
  · intro hle
    rw [build_dataset_info, dif_neg (by omega)]

/-- Witness for claim C8 on a concrete cyclic lineage graph (dataset 0 is
its own source): the traversal terminates with bounded nesting. -/
theorem build_dataset_info_depth_guard_witness :
    (0 < 5 ∧ DatasetInfo.height
        (build_dataset_info
          ⟨fun _ => [("parent", 0)], fun _ => [0]⟩ 0 true false 1 5) ≤ 5)
    ∧ (5 ≤ 7 ∧ build_dataset_info
          ⟨fun _ => [("parent", 0)], fun _ => [0]⟩ 0 true false 7 5
        = DatasetInfo.node 0 [] []) :=
  ⟨⟨by omega,
    (build_dataset_info_depth_guard ⟨fun _ => [("parent", 0)], fun _ => [0]⟩
        0 true false 1 5).2.1 (by omega)⟩,
   ⟨by omega,
    (build_dataset_info_depth_guard ⟨fun _ => [("parent", 0)], fun _ => [0]⟩
        0 true false 7 5).2.2 (by omega)⟩⟩

/-- Claim C2: adding a definition a second time, equivalent to the stored
one of the same name, succeeds silently and leaves the stored state
identical to the state after the first add; adding one with the same name
but a structurally different body fails with a validation error without
overwriting the stored definition. -/
theorem add_document_idempotent (r : Registry) (name : String) (body : DocBody) :
    (∀ r2, add_document r name body = Except.ok r2 →
        add_document r2 name body = Except.ok r2)
    ∧ (∀ stored, r.docs.find? (fun kv => kv.1 = name) = some stored →
        stored.2 ≠ body →
        add_document r name body
          = Except.error ("Definition differs from the version stored for " ++ name)) := by
  constructor
  · intro r2 h2
    unfold add_document at h2 ⊢
    cases hfind : r.docs.find? (fun kv => kv.1 = name) with
    | some kv =>
      rw [hfind] at h2
      dsimp only at h2
      by_cases heq : kv.2 = body
      · rw [if_pos heq] at h2
        simp only [Except.ok.injEq] at h2
        subst h2
        rw [hfind]
        dsimp only
        rw [if_pos heq]
      · rw [if_neg heq] at h2
        exact absurd h2 (by simp)
    | none =>
      rw [hfind] at h2
      simp only [Except.ok.injEq] at h2
      subst h2
      have hfind2 : (r.docs ++ [(name, body)]).find? (fun kv => kv.1 = name)
          = some (name, body) := by
        rw [List.find?_append, hfind]
        simp
      dsimp only
      rw [hfind2]
      dsimp only
      rw [if_pos rfl]
  · intro stored hfind hne
    unfold add_document
    rw [hfind]
    dsimp only
    rw [if_neg hne]

/-- Witness for claim C2: re-adding an identical definition is a silent
no-op on a concrete registry. -/
theorem add_document_idempotent_witness :
    add_document ⟨[("ls5_telem_test", [("product_type", "satellite_telemetry_data")])]⟩
        "ls5_telem_test" [("product_type", "satellite_telemetry_data")]
      = Except.ok ⟨[("ls5_telem_test", [("product_type", "satellite_telemetry_data")])]⟩ :=
  (add_document_idempotent ⟨[]⟩ "ls5_telem_test"
      [("product_type", "satellite_telemetry_data")]).1
    ⟨[("ls5_telem_test", [("product_type", "satellite_telemetry_data")])]⟩ rfl

/-- Replacing the entry under `name` makes a later lookup of `name` return
exactly the new definition. -/
theorem find?_replace_entry (l : List (String × Definition)) (name : String)
    (incoming : Definition) (h : (l.find? (fun kv => kv.1 = name)).isSome) :
    (l.map (fun kv2 => if kv2.1 = name then (name, incoming) else kv2)).find?
        (fun kv => kv.1 = name) = some (name, incoming) := by
  induction l with
  | nil => simp at h
  | cons kv rest ih =>
    rw [List.map_cons]
    by_cases hk : kv.1 = name
    · rw [if_pos hk]
      exact List.find?_cons_of_pos _ (by simp)
    · rw [if_neg hk]
      rw [List.find?_cons_of_neg _ (by simp [hk])]
      apply ih
      rw [List.find?_cons_of_neg _ (by simp [hk])] at h
      exact h

/-- Claim C3: when the stored definition named `name` exists and the
incoming one carries an unsafe change (an existing field's type or offsets
changed, or match rules tightened), `update_document` without the unsafe
opt-in fails with a validation error (the stored definition being
untouched); the same update with the opt-in succeeds and a subsequent read
returns exactly the new definition. -/
theorem update_document_safety (r : DefRegistry) (name : String)
    (incoming : Definition) :
    (∀ stored, r.docs.find? (fun kv => kv.1 = name) = some stored →
        hasUnsafeChange stored.2 incoming = true →
        update_document r name incoming false
          = Except.error ("Unsafe changes in " ++ name))
    ∧ (∀ stored, r.docs.find? (fun kv => kv.1 = name) = some stored →
        ∃ r2, update_document r name incoming true = Except.ok r2
          ∧ r2.docs.find? (fun kv => kv.1 = name) = some (name, incoming)) := by
  constructor
  · intro stored hfind hch
    unfold update_document
    rw [hfind]
    dsimp only
    rw [if_pos (by simp [hch])]
  · intro stored hfind
    unfold update_document
    rw [hfind]
    dsimp only
    rw [if_neg (by simp)]
    exact ⟨_, rfl, find?_replace_entry r.docs name incoming (by simp [hfind])⟩

/-- Witness for claim C3, mirroring `test_update_metadata_type`: changing
the stored `time` field's type from datetime-range to numeric-range is
rejected without the opt-in and applied with it. -/
theorem update_document_safety_witness :
    (update_document
        ⟨[("eo", ⟨[("time", ⟨"datetime-range", [["extent", "from_dt"]]⟩)], []⟩)]⟩
        "eo" ⟨[("time", ⟨"numeric-range", [["extent", "from_dt"]]⟩)], []⟩ false
      = Except.error ("Unsafe changes in " ++ "eo"))
    ∧ (∃ r2, update_document
        ⟨[("eo", ⟨[("time", ⟨"datetime-range", [["extent", "from_dt"]]⟩)], []⟩)]⟩
        "eo" ⟨[("time", ⟨"numeric-range", [["extent", "from_dt"]]⟩)], []⟩ true
      = Except.ok r2
      ∧ r2.docs.find? (fun kv => kv.1 = "eo")
        = some ("eo", ⟨[("time", ⟨"numeric-range", [["extent", "from_dt"]]⟩)], []⟩)) :=
  ⟨(update_document_safety
      ⟨[("eo", ⟨[("time", ⟨"datetime-range", [["extent", "from_dt"]]⟩)], []⟩)]⟩
      "eo" ⟨[("time", ⟨"numeric-range", [["extent", "from_dt"]]⟩)], []⟩).1
    ("eo", ⟨[("time", ⟨"datetime-range", [["extent", "from_dt"]]⟩)], []⟩) rfl rfl,
   (update_document_safety
      ⟨[("eo", ⟨[("time", ⟨"datetime-range", [["extent", "from_dt"]]⟩)], []⟩)]⟩
      "eo" ⟨[("time", ⟨"numeric-range", [["extent", "from_dt"]]⟩)], []⟩).2
    ("eo", ⟨[("time", ⟨"datetime-range", [["extent", "from_dt"]]⟩)], []⟩) rfl⟩

/-- Every emitted row pairs the id of a matching dataset with one of its
uris. -/
theorem search_returning_uri_mem (store : List SearchDataset)
    (m : SearchDataset → Bool) :
    ∀ row ∈ search_returning_uri store m,
      ∃ d ∈ store, m d = true ∧ row.1 = d.id ∧ row.2 ∈ d.uris := by
  intro row hrow
  unfold search_returning_uri at hrow
  obtain ⟨d, hd, hrow2⟩ := List.mem_flatMap.mp hrow
  obtain ⟨u, hu, hrowu⟩ := List.mem_map.mp hrow2
  exact ⟨d, List.mem_of_mem_filter hd,
    List.of_mem_filter hd, by rw [← hrowu], by rw [← hrowu]; exact hu⟩

/-- The number of rows carrying a given matching dataset's id equals that
dataset's number of locations, when ids are unique. -/
theorem search_returning_uri_count (store : List SearchDataset)
    (m : SearchDataset → Bool)
    (hnodup : (store.map (fun d => d.id)).Nodup) (d : SearchDataset)
    (hd : d ∈ store) (hm : m d = true) :
    ((search_returning_uri store m).filter (fun row => row.1 = d.id)).length
      = d.uris.length := by
  induction store with
  | nil => exact absurd hd (List.not_mem_nil d)
  | cons x rest ih =>
    rw [List.map_cons, List.nodup_cons] at hnodup
    obtain ⟨hxid, hnodup_rest⟩ := hnodup
    unfold search_returning_uri at ih ⊢
    rcases List.mem_cons.mp hd with heq | hdrest
    · subst heq
      rw [List.filter_cons, if_pos (by simp [hm])]
      rw [List.flatMap_cons, List.filter_append, List.length_append]
      have h1 : (d.uris.map (fun u => (d.id, u))).filter (fun row => row.1 = d.id)
          = d.uris.map (fun u => (d.id, u)) := by
        apply List.filter_eq_self.mpr
        intro row hrow
        obtain ⟨u, _, hrowu⟩ := List.mem_map.mp hrow
        rw [← hrowu]
        simp
      have h2 : ((rest.filter m).flatMap
            (fun d2 => d2.uris.map (fun u => (d2.id, u)))).filter
          (fun row => row.1 = d.id) = [] := by
        rw [List.filter_eq_nil_iff]
        intro row hrow
        obtain ⟨d2, hd2, hrow2⟩ := List.mem_flatMap.mp hrow
        obtain ⟨u, _, hrowu⟩ := List.mem_map.mp hrow2
        rw [← hrowu]
        simp only [decide_eq_true_eq]
        intro hc
        exact hxid (by rw [← hc]; exact List.mem_map.mpr ⟨d2, List.mem_of_mem_filter hd2, rfl⟩)
      rw [h1, h2]
      simp
    · have hdid : ¬(d.id = x.id) := by
        intro hc
        exact hxid (by rw [← hc]; exact List.mem_map.mpr ⟨d, hdrest, rfl⟩)
      rw [List.filter_cons]
      by_cases hmx : m x = true
      · rw [if_pos (by simp [hmx])]
        rw [List.flatMap_cons, List.filter_append, List.length_append]
        have h0 : (x.uris.map (fun u => (x.id, u))).filter (fun row => row.1 = d.id)
            = [] := by
          rw [List.filter_eq_nil_iff]
          intro row hrow
          obtain ⟨u, _, hrowu⟩ := List.mem_map.mp hrow
          rw [← hrowu]
          simp only [decide_eq_true_eq]
          exact fun hc => hdid hc.symm
        rw [h0]
        simp [ih hnodup_rest hdrest]
      · rw [if_neg (by simp [hmx])]
        exact ih hnodup_rest hdrest

/-- Claim C7: with a uri field among the requested fields,
`search_returning` emits exactly one row per (matching dataset, location)
pair — a matching dataset with two locations yields two rows pairing its id
with each uri, one with zero locations yields zero rows — whenever dataset
ids are unique. -/
theorem search_returning_rows_spec (store : List SearchDataset)
    (m : SearchDataset → Bool)
    (hnodup : (store.map (fun d => d.id)).Nodup) :
    (∀ row ∈ search_returning_uri store m,
        ∃ d ∈ store, m d = true ∧ row.1 = d.id ∧ row.2 ∈ d.uris)
    ∧ (∀ d ∈ store, m d = true →
        ((search_returning_uri store m).filter (fun row => row.1 = d.id)).length
          = d.uris.length) :=
  ⟨search_returning_uri_mem store m,
   fun d hd hm => search_returning_uri_count store m hnodup d hd hm⟩

/-- Witness for claim C7, mirroring `test_search_returning_rows`: a
matching dataset with two locations contributes two rows, a matching
dataset with no locations contributes none. -/
theorem search_returning_rows_spec_witness :
    ((search_returning_uri
        [⟨1, ["file:///tmp/test1", "file:///tmp/test2"]⟩, ⟨2, []⟩]
        (fun _ => true)).filter (fun row => row.1 = 1)).length = 2
    ∧ ((search_returning_uri
        [⟨1, ["file:///tmp/test1", "file:///tmp/test2"]⟩, ⟨2, []⟩]
        (fun _ => true)).filter (fun row => row.1 = 2)).length = 0 := by
  have h := search_returning_rows_spec
    [⟨1, ["file:///tmp/test1", "file:///tmp/test2"]⟩, ⟨2, []⟩]
    (fun _ => true) (by simp)
  exact ⟨h.2 ⟨1, ["file:///tmp/test1", "file:///tmp/test2"]⟩ (by simp) rfl,
    h.2 ⟨2, []⟩ (by simp) rfl⟩

/-- A fold of `minStep` starting from `none` yields `none` only on the
empty list. -/
theorem foldr_minStep_eq_none (l : List Int)
    (h : l.foldr minStep none = none) : l = [] := by
  cases l with
  | nil => rfl
  | cons a rest =>
    rw [List.foldr_cons] at h
    cases hr : rest.foldr minStep none with
    | none => rw [hr] at h; simp [minStep] at h
    | some y => rw [hr] at h; simp [minStep] at h

/-- A fold of `maxStep` starting from `none` yields `none` only on the
empty list. -/
theorem foldr_maxStep_eq_none (l : List Int)
    (h : l.foldr maxStep none = none) : l = [] := by
  cases l with
  | nil => rfl
  | cons a rest =>
    rw [List.foldr_cons] at h
    cases hr : rest.foldr maxStep none with
    | none => rw [hr] at h; simp [maxStep] at h
    | some y => rw [hr] at h; simp [maxStep] at h

/-- The `minStep` fold computes a member of the list that is a lower bound
of it. -/
theorem foldr_minStep_spec (l : List Int) (x : Int)
    (hx : l.foldr minStep none = some x) : x ∈ l ∧ ∀ y ∈ l, x ≤ y := by
  induction l generalizing x with
  | nil => simp at hx
  | cons a rest ih =>
    rw [List.foldr_cons] at hx
    cases hr : rest.foldr minStep none with
    | none =>
      rw [hr] at hx
      simp only [minStep] at hx
      have hrest := foldr_minStep_eq_none rest hr
      subst hrest
      have hxa : a = x := Option.some.inj hx
      subst hxa
      exact ⟨List.mem_cons_self a [], by simp⟩
    | some m =>
      rw [hr] at hx
      simp only [minStep] at hx
      have hxm : min a m = x := Option.some.inj hx
      obtain ⟨hmem, hbound⟩ := ih m hr
      constructor
      · rcases min_choice a m with hc | hc
        · rw [← hxm, hc]
          exact List.mem_cons_self a rest
        · rw [← hxm, hc]
          exact List.mem_cons_of_mem a hmem
      · intro y hy
        rcases List.mem_cons.mp hy with heq | hyr
        · subst heq
          rw [← hxm]
          exact min_le_left _ _
        · rw [← hxm]
          exact le_trans (min_le_right a m) (hbound y hyr)

/-- The `maxStep` fold computes a member of the list that is an upper bound
of it. -/
theorem foldr_maxStep_spec (l : List Int) (x : Int)
    (hx : l.foldr maxStep none = some x) : x ∈ l ∧ ∀ y ∈ l, y ≤ x := by
  induction l generalizing x with
  | nil => simp at hx
  | cons a rest ih =>
    rw [List.foldr_cons] at hx
    cases hr : rest.foldr maxStep none with
    | none =>
      rw [hr] at hx
      simp only [maxStep] at hx
      have hrest := foldr_maxStep_eq_none rest hr
      subst hrest
      have hxa : a = x := Option.some.inj hx
      subst hxa
      exact ⟨List.mem_cons_self a [], by simp⟩
    | some m =>
      rw [hr] at hx
      simp only [maxStep] at hx
      have hxm : max a m = x := Option.some.inj hx
      obtain ⟨hmem, hbound⟩ := ih m hr
      constructor
      · rcases max_choice a m with hc | hc
        · rw [← hxm, hc]
          exact List.mem_cons_self a rest
        · rw [← hxm, hc]
          exact List.mem_cons_of_mem a hmem
      · intro y hy
        rcases List.mem_cons.mp hy with heq | hyr
        · subst heq
          rw [← hxm]
          exact le_max_left _ _
        · rw [← hxm]
          exact le_trans (hbound y hyr) (le_max_right a m)

/-- SQL `least` semantics are invariant under permutation of the offsets. -/
theorem leastVal_perm (v : List String → Int) {offs offs2 : List (List String)}
    (h : offs.Perm offs2) : leastVal v offs = leastVal v offs2 := by
  unfold leastVal
  exact List.Perm.foldr_eq (f := minStep) (h.map v) none

/-- SQL `greatest` semantics are invariant under permutation of the
offsets. -/
theorem greatestVal_perm (v : List String → Int) {offs offs2 : List (List String)}
    (h : offs.Perm offs2) : greatestVal v offs = greatestVal v offs2 := by
  unfold greatestVal
  exact List.Perm.foldr_eq (f := maxStep) (h.map v) none

set_option maxRecDepth 8192 in
/-- Claim C1: the compiled expression of a multi-offset range field is
`range(least(all extracted values), greatest(all extracted values), '[]')`
— rendering exactly the SQL pinned by `test_field_expression_unchanged` —
and its value on any document is the `[min(values), max(values)]`
inclusive-inclusive interval, unchanged under every permutation of the
declared offset list. -/
theorem range_field_compile_spec :
    (numericRangeSql latCorners latCorners =
      "agdc.float8range(least(CAST(agdc.dataset.metadata #>> \x27\x7bextent, coord, ur, lat\x7d\x27 AS DOUBLE PRECISION), CAST(agdc.dataset.metadata #>> \x27\x7bextent, coord, lr, lat\x7d\x27 AS DOUBLE PRECISION), CAST(agdc.dataset.metadata #>> \x27\x7bextent, coord, ul, lat\x7d\x27 AS DOUBLE PRECISION), CAST(agdc.dataset.metadata #>> \x27\x7bextent, coord, ll, lat\x7d\x27 AS DOUBLE PRECISION)), greatest(CAST(agdc.dataset.metadata #>> \x27\x7bextent, coord, ur, lat\x7d\x27 AS DOUBLE PRECISION), CAST(agdc.dataset.metadata #>> \x27\x7bextent, coord, lr, lat\x7d\x27 AS DOUBLE PRECISION), CAST(agdc.dataset.metadata #>> \x27\x7bextent, coord, ul, lat\x7d\x27 AS DOUBLE PRECISION), CAST(agdc.dataset.metadata #>> \x27\x7bextent, coord, ll, lat\x7d\x27 AS DOUBLE PRECISION)), \x27[]\x27)")
    ∧ (datetimeRangeSql timeMinOffsets timeMaxOffsets =
      "tstzrange(least(agdc.common_timestamp(agdc.dataset.metadata #>> \x27\x7bextent, from_dt\x7d\x27), agdc.common_timestamp(agdc.dataset.metadata #>> \x27\x7bextent, center_dt\x7d\x27)), greatest(agdc.common_timestamp(agdc.dataset.metadata #>> \x27\x7bextent, to_dt\x7d\x27), agdc.common_timestamp(agdc.dataset.metadata #>> \x27\x7bextent, center_dt\x7d\x27)), \x27[]\x27)")
    ∧ (jsonExtractSql ["platform", "code"] =
      "agdc.dataset.metadata #>> \x27\x7bplatform, code\x7d\x27")
    ∧ (intExtractSql ["acquisition", "platform_orbit"] =
      "CAST(agdc.dataset.metadata #>> \x27\x7bacquisition, platform_orbit\x7d\x27 AS INTEGER)")
    ∧ (∀ (v : List String → Int) (offs offs2 : List (List String)),
        offs.Perm offs2 → compiledRange v offs = compiledRange v offs2)
    ∧ (∀ (v : List String → Int) (offs : List (List String)) (lo hi : Int),
        compiledRange v offs = (some lo, some hi, true, true) →
        (lo ∈ offs.map v ∧ ∀ y ∈ offs.map v, lo ≤ y)
        ∧ (hi ∈ offs.map v ∧ ∀ y ∈ offs.map v, y ≤ hi))
    ∧ (∀ (v : List String → Int) (offs : List (List String)), offs ≠ [] →
        ∃ lo hi, compiledRange v offs = (some lo, some hi, true, true)) := by
  refine ⟨rfl, rfl, rfl, rfl, ?_, ?_, ?_⟩
  · intro v offs offs2 hperm
    unfold compiledRange
    rw [leastVal_perm v hperm, greatestVal_perm v hperm]
  · intro v offs lo hi hc
    unfold compiledRange at hc
    simp only [Prod.mk.injEq] at hc
    obtain ⟨hlo, hhi, -⟩ := hc
    exact ⟨foldr_minStep_spec (offs.map v) lo hlo,
      foldr_maxStep_spec (offs.map v) hi hhi⟩
  · intro v offs hne
    cases hlo : leastVal v offs with
    | none =>
      exact absurd (List.map_eq_nil_iff.mp (foldr_minStep_eq_none _ hlo)) hne
    | some lo =>
      cases hhi : greatestVal v offs with
      | none =>
        exact absurd (List.map_eq_nil_iff.mp (foldr_maxStep_eq_none _ hhi)) hne
      | some hi =>
        exact ⟨lo, hi, by unfold compiledRange; rw [hlo, hhi]⟩

/-- Witness for claim C1: on a concrete document valuation the compiled
latitude range equals `[1, 7]` for the declared corner order and for a
shuffled corner order alike. -/
theorem range_field_compile_spec_witness :
    (compiledRange
        (fun off => if off.getD 2 "" = "ur" then 5
          else if off.getD 2 "" = "lr" then 3
          else if off.getD 2 "" = "ul" then (7 : Int) else 1)
        latCorners
      = compiledRange
        (fun off => if off.getD 2 "" = "ur" then 5
          else if off.getD 2 "" = "lr" then 3
          else if off.getD 2 "" = "ul" then (7 : Int) else 1)
        [["extent", "coord", "ll", "lat"], ["extent", "coord", "ur", "lat"],
         ["extent", "coord", "lr", "lat"], ["extent", "coord", "ul", "lat"]])
    ∧ ((1 : Int) ∈ latCorners.map
        (fun off => if off.getD 2 "" = "ur" then 5
          else if off.getD 2 "" = "lr" then 3
          else if off.getD 2 "" = "ul" then (7 : Int) else 1)
      ∧ ∀ y ∈ latCorners.map
          (fun off => if off.getD 2 "" = "ur" then 5
            else if off.getD 2 "" = "lr" then 3
            else if off.getD 2 "" = "ul" then (7 : Int) else 1), (1 : Int) ≤ y) :=
  ⟨(range_field_compile_spec).2.2.2.2.1
      (fun off => if off.getD 2 "" = "ur" then 5
        else if off.getD 2 "" = "lr" then 3
        else if off.getD 2 "" = "ul" then (7 : Int) else 1)
      latCorners
      [["extent", "coord", "ll", "lat"], ["extent", "coord", "ur", "lat"],
       ["extent", "coord", "lr", "lat"], ["extent", "coord", "ul", "lat"]]
      (by decide),
   ((range_field_compile_spec).2.2.2.2.2.1
      (fun off => if off.getD 2 "" = "ur" then 5
        else if off.getD 2 "" = "lr" then 3
        else if off.getD 2 "" = "ul" then (7 : Int) else 1)
      latCorners 1 7 (by decide)).1⟩

end Spec2Proof
